import Mathlib

/-
Verification development for the travis-job repository: a Go program that
triggers a Travis CI build for a branch, polls for its completion, and
reports a pass/fail outcome via the process exit code.

The Go sources (main.go and pkg/travis/job.go) are shallowly embedded here:
pure logic is translated directly; the HTTP boundary is represented by an
`HttpOutcome` value describing how far a single network exchange got
(request could not be sent, response body could not be read, response body
could not be decoded, or a decoded value); real time is represented by
counting ticker ticks against the 40-minute deadline.
-/

set_option maxRecDepth 4096

namespace TravisJob

/-- A build record, mirroring `type build struct` in pkg/travis/job.go.
`json.Number` fields are carried as strings, exactly as Go stores them. -/
structure build where
  ID : String
  PreviousState : String
  State : String
deriving DecidableEq, Repr

/-- The Go zero value `build\x7b\x7d`: every field is the empty string
(the zero value of both `string` and `json.Number`). -/
def emptyBuild : build := ⟨"", "", ""⟩

/-- The nested `request` object of a trigger response
(`triggerBuildResponse.Request`). -/
structure requestField where
  ID : String
deriving DecidableEq, Repr

/-- Mirror of `type triggerBuildResponse struct` in pkg/travis/job.go. -/
structure triggerBuildResponse where
  Request : requestField
deriving DecidableEq, Repr

/-- Mirror of `type buildStatusResponse struct` in pkg/travis/job.go. -/
structure buildStatusResponse where
  Builds : List build
deriving DecidableEq, Repr

/-- Error taxonomy of the spec, classifying the `error` values the Go code
returns: which stage of an HTTP exchange failed, or which explicit
`errors.New` call produced the error. -/
inductive JobError where
  /-- `j.client.Do(req)` or `ioutil.ReadAll(resp.Body)` returned an error. -/
  | TransportError
  /-- `json.Unmarshal(body, &res)` returned an error. -/
  | DecodeError
  /-- `errors.New("no builds found")` in getBuildStatus. -/
  | NotFoundError
  /-- `errors.New("timed out waiting for build result")` in pollForResult. -/
  | TimeoutError
  /-- `http.NewRequest` failed (getBuildStatus wraps this in its own
  `errors.New` message; triggerBuild returns it raw). -/
  | RequestCreationError
deriving DecidableEq, Repr

/-- The message text of an error, as the Go code would render it with
`err.Error()`. Transport and decode errors carry messages produced by the
net/http and encoding/json packages; representative texts are used here. -/
def errMsg : JobError → String
  | JobError.TransportError => "transport error"
  | JobError.DecodeError => "decode error"
  | JobError.NotFoundError => "no builds found"
  | JobError.TimeoutError => "timed out waiting for build result"
  | JobError.RequestCreationError => "JOB - TRAVIS: Error trying to fetch build status"

/-- Outcome of one HTTP exchange (build request, send, read body, decode),
with `α` the decoded response type. This is the environment input to the
embedded network-calling functions: it records how far the exchange got. -/
inductive HttpOutcome (α : Type) where
  /-- `http.NewRequest` returned an error. -/
  | newRequestFailure
  /-- `j.client.Do(req)` returned an error (request could not be sent). -/
  | sendFailure
  /-- `ioutil.ReadAll(resp.Body)` returned an error (body unreadable). -/
  | readFailure
  /-- `json.Unmarshal` returned an error (body not parseable into `α`). -/
  | decodeFailure
  /-- The exchange succeeded and the body decoded to `a`. -/
  | ok (a : α)
deriving DecidableEq, Repr

/-- Mirror of `var travisSuccessTermSet` (a `map[string]struct\x7b\x7d`
used only for membership, embedded as the list of its keys). -/
def travisSuccessTermSet : List String := ["passed"]

/-- Mirror of `var travisFailureTermSet`. -/
def travisFailureTermSet : List String := ["failed", "errored", "canceled"]

/-- Mirror of `var travisDoneTermSet`. -/
def travisDoneTermSet : List String := ["passed", "failed", "errored", "canceled"]

/-- Mirror of `func contains(set map[string]struct\x7b\x7d, item string) bool`. -/
def contains (set : List String) (item : String) : Bool :=
  set.contains item

/-- Mirror of the HTTP client built in NewJob:
`&http.Client\x7bTimeout: 5 * time.Second\x7d`. Only the timeout
configuration is observable in this model. -/
structure HttpClient where
  timeoutSeconds : Nat
deriving DecidableEq, Repr

/-- Mirror of `type Job struct` in pkg/travis/job.go. The poll interval is
a Go `int` of seconds; the embedding uses `Nat` (Go panics in
`time.NewTicker` for non-positive intervals, so meaningful runs have a
positive interval, which theorems state as a hypothesis where needed). -/
structure Job where
  branch : String
  client : HttpClient
  repoOwner : String
  repoName : String
  travisToken : String
  travisTLD : String
  pollInterval : Nat
deriving DecidableEq, Repr

/-- Mirror of `func NewJob`: initializes a Job, constructing the shared
HTTP client with a 5-second timeout. -/
def NewJob (branch : String) (owner : String) (repoName : String)
    (token : String) (tld : String) (pi : Nat) : Job :=
  { client := { timeoutSeconds := 5 }
    branch := branch
    repoOwner := owner
    repoName := repoName
    travisToken := token
    travisTLD := tld
    pollInterval := pi }

/-- Hex digit characters, lowercase, as used by Go strconv's `lowerhex`. -/
def hexDigit (n : Nat) : Char :=
  if n < 10 then Char.ofNat (48 + n) else Char.ofNat (87 + n)

/-- Go escape `\xhh` for a byte value (strconv's two-digit hex escape). -/
def hexEsc2 (n : Nat) : List Char :=
  ['\\', 'x', hexDigit (n / 16 % 16), hexDigit (n % 16)]

/-- Go escape `\uhhhh` (strconv's four-digit hex escape). -/
def hexEsc4 (n : Nat) : List Char :=
  ['\\', 'u', hexDigit (n / 4096 % 16), hexDigit (n / 256 % 16),
   hexDigit (n / 16 % 16), hexDigit (n % 16)]

/-- Go escape `\Uhhhhhhhh` (strconv's eight-digit hex escape). -/
def hexEsc8 (n : Nat) : List Char :=
  ['\\', 'U', hexDigit (n / 0x10000000 % 16), hexDigit (n / 0x1000000 % 16),
   hexDigit (n / 0x100000 % 16), hexDigit (n / 0x10000 % 16),
   hexDigit (n / 4096 % 16), hexDigit (n / 256 % 16),
   hexDigit (n / 16 % 16), hexDigit (n % 16)]

/-- Go `unicode.IsPrint`. Exact on ASCII (printable iff in 0x20..0x7e); for
codepoints at or above 0x80 Go consults its Unicode range tables, which are
approximated here by `true`. All quoting theorems below restrict their
inputs to ASCII, where this function agrees with Go exactly. -/
def goIsPrint (c : Char) : Bool :=
  if c.toNat < 0x80 then decide (0x20 ≤ c.toNat) && decide (c.toNat ≤ 0x7e)
  else true

/-- Go `strconv.Quote` applied to one rune (the body of its per-rune loop,
also what `fmt.Sprintf` with the `%q` verb emits per rune): quote and
backslash are backslash-escaped; printable runes pass through; the named
escapes `\a \b \f \n \r \t \v` cover their seven control characters; all
remaining runes get `\x`, `\u` or `\U` hex escapes by magnitude. -/
def goQuoteChar (c : Char) : List Char :=
  if c = '"' || c = '\\' then ['\\', c]
  else if goIsPrint c then [c]
  else
    match c.toNat with
    | 7 => ['\\', 'a']
    | 8 => ['\\', 'b']
    | 12 => ['\\', 'f']
    | 10 => ['\\', 'n']
    | 13 => ['\\', 'r']
    | 9 => ['\\', 't']
    | 11 => ['\\', 'v']
    | n =>
      if n < 0x20 || n = 0x7f then hexEsc2 n
      else if n < 0x10000 then hexEsc4 n
      else hexEsc8 n

/-- Go `strconv.Quote` on a whole string: a double-quoted literal with
every rune escaped by `goQuoteChar`. -/
def goQuote (s : String) : List Char :=
  '"' :: (s.data.flatMap goQuoteChar ++ ['"'])

/-- The fixed leading characters of the trigger request body, up to the
opening quote of the branch literal (the Sprintf format string
`\x7b"request": \x7b"branch": %q\x7d\x7d` with `%q` removed). -/
def bodyOpen : List Char := "\x7b\"request\": \x7b\"branch\": ".data

/-- The fixed trailing characters of the trigger request body: two closing
braces. -/
def bodyTail : List Char := ['\x7d', '\x7d']

/-- The trigger request body built in triggerBuild:
`fmt.Sprintf` of the format `\x7b"request": \x7b"branch": %q\x7d\x7d`
applied to the configured branch. -/
def triggerBody (branch : String) : String :=
  String.mk (bodyOpen ++ goQuote branch ++ bodyTail)

/-- The trigger endpoint URL built in triggerBuild (the `%%2F` in the Go
format string renders as the literal `%2F`). -/
def triggerURL (j : Job) : String :=
  "https://api.travis-ci." ++ j.travisTLD ++ "/repo/" ++ j.repoOwner ++
    "%2F" ++ j.repoName ++ "/requests"

/-- The status endpoint URL built in getBuildStatus. -/
def statusURL (j : Job) (requestID : String) : String :=
  "https://api.travis-ci." ++ j.travisTLD ++ "/repo/" ++ j.repoOwner ++
    "%2F" ++ j.repoName ++ "/request/" ++ requestID

/-- An HTTP request as assembled by the Go code before `client.Do`. -/
structure HttpRequest where
  method : String
  url : String
  headers : List (String × String)
  body : Option String
deriving DecidableEq, Repr

/-- The request assembled by triggerBuild, with the three headers set in
the source and the JSON body for the configured branch. -/
def triggerRequest (j : Job) : HttpRequest :=
  { method := "POST"
    url := triggerURL j
    headers := [("Content-Type", "application/json"),
                ("Travis-API-Version", "3"),
                ("Authorization", "token " ++ j.travisToken)]
    body := some (triggerBody j.branch) }

/-- The request assembled by getBuildStatus (a GET with `nil` body). -/
def statusRequest (j : Job) (requestID : String) : HttpRequest :=
  { method := "GET"
    url := statusURL j requestID
    headers := [("Content-Type", "application/json"),
                ("Travis-API-Version", "3"),
                ("Authorization", "token " ++ j.travisToken)]
    body := none }

/-- The network call performed by triggerBuild: the source executes
`j.client.Do(req)`, so the call is made with the Job's own client. -/
def triggerHttpCall (j : Job) : HttpClient × HttpRequest :=
  (j.client, triggerRequest j)

/-- The network call performed by getBuildStatus on each poll tick:
likewise executed with `j.client.Do(req)`. -/
def statusHttpCall (j : Job) (requestID : String) : HttpClient × HttpRequest :=
  (j.client, statusRequest j requestID)

/-- Mirror of `func (j *Job) triggerBuild() (requestID string, err error)`.
The function's control flow is a chain of early returns, one per failure
stage of the HTTP exchange; on success it returns `string(res.Request.ID)`
(a `json.Number` is already a string). Go multi-returns `(value, err)` are
embedded as a pair with an optional error. -/
def triggerBuild (net : HttpOutcome triggerBuildResponse) : String × Option JobError :=
  match net with
  | HttpOutcome.newRequestFailure => ("", some JobError.RequestCreationError)
  | HttpOutcome.sendFailure => ("", some JobError.TransportError)
  | HttpOutcome.readFailure => ("", some JobError.TransportError)
  | HttpOutcome.decodeFailure => ("", some JobError.DecodeError)
  | HttpOutcome.ok res => (res.Request.ID, none)

/-- Mirror of `func (j *Job) getBuildStatus(requestID string) (b build, err error)`
after the HTTP exchange: on a decoded response it returns the first build
record when there is one (`res.Builds[0]`, "Only expect one build for
branch"), and otherwise the zero build together with
`errors.New("no builds found")`. -/
def getBuildStatus (net : HttpOutcome buildStatusResponse) : build × Option JobError :=
  match net with
  | HttpOutcome.newRequestFailure => (emptyBuild, some JobError.RequestCreationError)
  | HttpOutcome.sendFailure => (emptyBuild, some JobError.TransportError)
  | HttpOutcome.readFailure => (emptyBuild, some JobError.TransportError)
  | HttpOutcome.decodeFailure => (emptyBuild, some JobError.DecodeError)
  | HttpOutcome.ok res =>
    match res.Builds with
    | b :: _ => (b, none)
    | [] => (emptyBuild, some JobError.NotFoundError)

/-- The human-facing build URL logged in the one-time build-started notice:
`https://travis-ci.<tld>/<owner>/<repo>/builds/<buildID>`. -/
def buildURL (j : Job) (buildID : String) : String :=
  "https://travis-ci." ++ j.travisTLD ++ "/" ++ j.repoOwner ++ "/" ++
    j.repoName ++ "/builds/" ++ buildID

/-- One log line emitted during polling, kept structured so theorems can
inspect what was logged. -/
inductive LogLine where
  /-- `log.Debug` "Polling for build result..." at the top of each tick. -/
  | polling
  /-- `log.Debug` "Fetching build status for request ..." inside
  getBuildStatus. -/
  | fetching (requestID : String)
  /-- `log.Error` of a per-tick getBuildStatus error. -/
  | pollError (e : JobError)
  /-- `log.Debug` one-time build-started notice with the fetched build's
  own ID and the human-facing build URL. -/
  | buildStarted (buildID : String) (url : String)
deriving DecidableEq, Repr

/-- State of one pollForResult call: the `sentBuildID` flag, the log lines
emitted so far, and the content of the single-slot handoff channel `c`. -/
structure PollState where
  sentBuildID : Bool
  log : List LogLine
  delivered : Option build
deriving DecidableEq, Repr

/-- The state at the start of a pollForResult call: `sentBuildID := false`,
nothing logged, channel empty. -/
def initPollState : PollState :=
  { sentBuildID := false, log := [], delivered := none }

/-- One iteration of the ticker goroutine body in pollForResult: log the
polling notice, run getBuildStatus (which logs its fetching line); on a
per-tick error, log it and continue; on a fetched build, emit the one-time
build-started notice if not yet sent, then deliver the build on the
channel exactly when its state is in the Done set. -/
def pollTick (j : Job) (requestID : String) (st : PollState)
    (net : HttpOutcome buildStatusResponse) : PollState :=
  let log0 := st.log ++ [LogLine.polling, LogLine.fetching requestID]
  match getBuildStatus net with
  | (_, some e) => { st with log := log0 ++ [LogLine.pollError e] }
  | (b, none) =>
    let log1 := if st.sentBuildID then log0
                else log0 ++ [LogLine.buildStarted b.ID (buildURL j b.ID)]
    if contains travisDoneTermSet b.State then
      { sentBuildID := true, log := log1, delivered := some b }
    else
      { sentBuildID := true, log := log1, delivered := st.delivered }

/-- The ticker goroutine of pollForResult run over a list of tick
outcomes. Once a build has been delivered the foreground `select` receives
it and calls `ticker.Stop()`, so no further tick is processed. -/
def pollLoop (j : Job) (requestID : String) (st : PollState) :
    List (HttpOutcome buildStatusResponse) → PollState
  | [] => st
  | t :: ts =>
    if st.delivered.isSome then st
    else pollLoop j requestID (pollTick j requestID st t) ts

/-- The overall poll deadline from `time.After(40 * time.Minute)`,
in seconds. -/
def deadlineSeconds : Nat := 40 * 60

/-- Number of ticker ticks that fire strictly before the 40-minute
deadline: ticks occur at `p, 2p, 3p, ...` seconds, so for positive `p`
this counts the indices `i ≥ 1` with `i * p < 2400`. -/
def maxTicks (p : Nat) : Nat := (deadlineSeconds - 1) / p

/-- Whether a single tick outcome leads to a delivery on the handoff
channel: the fetch must succeed and the fetched state must be in the Done
set. -/
def tickDelivers (t : HttpOutcome buildStatusResponse) : Bool :=
  match getBuildStatus t with
  | (b, none) => contains travisDoneTermSet b.State
  | (_, some _) => false

/-- Mirror of `func (j *Job) pollForResult(requestID string) (build, error)`.
The environment `env` gives the outcome of the status fetch at each tick
index. The foreground `select` waits for the first of: a build delivered on
the channel (returned with no error), or the 40-minute deadline (returning
the zero build and `errors.New("timed out waiting for build result")`);
in both branches `ticker.Stop()` halts further ticks, which the embedding
reflects by consuming only the ticks that fire strictly before the
deadline and stopping the loop at the first delivery. The emitted log
lines are returned alongside for inspection. -/
def pollForResult (j : Job) (requestID : String)
    (env : Nat → HttpOutcome buildStatusResponse) :
    (build × Option JobError) × List LogLine :=
  let ticks := (List.range (maxTicks j.pollInterval)).map env
  let st := pollLoop j requestID initPollState ticks
  match st.delivered with
  | some b => ((b, none), st.log)
  | none => ((emptyBuild, some JobError.TimeoutError), st.log)

/-- Mirror of `reportSuccess`: logs and calls `os.Exit(0)`; the embedding
returns the exit code. -/
def reportSuccess (_buildID : String) : Nat := 0

/-- Mirror of `reportFailure`: logs and calls `os.Exit(1)`; the embedding
returns the exit code. -/
def reportFailure (_buildID : String) : Nat := 1

/-- Mirror of `func (j *Job) reportStatus(buildID string, status string)`:
if the status is in the success term set, reportSuccess runs and exits the
process; otherwise control falls through to reportFailure. (The Go source
has no `else`: the fall-through never runs after reportSuccess because
`os.Exit(0)` does not return, which the embedding renders as `else`.) -/
def reportStatus (buildID : String) (status : String) : Nat :=
  if contains travisSuccessTermSet status then reportSuccess buildID
  else reportFailure buildID

/-- Observable outcome of Execute: the process exited through a report
path, or a fatal log terminated it, or Execute returned normally (after
which `main` blocks forever on an empty `select`). -/
inductive ExecOutcome where
  | exited (code : Nat)
  | fatalLogged (msg : String)
  | returned
deriving DecidableEq, Repr

/-- Mirror of `func (j *Job) Execute()`. The source declares an outer
`var err error` and then binds `requestID, err := j.triggerBuild()` and
`b, err := j.pollForResult(requestID)` with `:=` inside the `if`
statements, so both inner `err`s shadow the outer one, which is never
assigned and still holds `nil` at the final `if err != nil` check: the
`log.Fatal` line is dead code, and a trigger or poll error makes Execute
return silently. -/
def Execute (j : Job) (netTrigger : HttpOutcome triggerBuildResponse)
    (envPoll : Nat → HttpOutcome buildStatusResponse) : ExecOutcome :=
  let outerErr : Option JobError := none
  let step : Option Nat :=
    match triggerBuild netTrigger with
    | (requestID, none) =>
      match (pollForResult j requestID envPoll).1 with
      | (b, none) => some (reportStatus b.ID b.State)
      | (_, some _shadowedErr) => none
    | (_, some _shadowedErr) => none
  match step with
  | some code => ExecOutcome.exited code
  | none =>
    match outerErr with
    | some e => ExecOutcome.fatalLogged (errMsg e)
    | none => ExecOutcome.returned

/-- The numeric value of an ASCII decimal digit, as accepted by Go
`strconv.Atoi`. -/
def digitVal (c : Char) : Option Nat :=
  if 0x30 ≤ c.toNat && c.toNat ≤ 0x39 then some (c.toNat - 0x30) else none

/-- Decimal evaluation of a digit sequence with an accumulator; fails on
the first non-digit character. -/
def digitsValAux (acc : Nat) : List Char → Option Nat
  | [] => some acc
  | c :: cs =>
    match digitVal c with
    | some d => digitsValAux (acc * 10 + d) cs
    | none => none

/-- Go `strconv.Atoi`: an optional single `+` or `-` sign followed by a
non-empty run of decimal digits; anything else is a parse error. (Go also
signals a range error past 64 bits, which this unbounded model omits; the
configuration values of interest are far smaller.) -/
def Atoi (s : String) : Option Int :=
  match s.data with
  | [] => none
  | '+' :: cs =>
    match cs with
    | [] => none
    | _ => (digitsValAux 0 cs).map Int.ofNat
  | '-' :: cs =>
    match cs with
    | [] => none
    | _ => (digitsValAux 0 cs).map (fun n => -(Int.ofNat n))
  | cs => (digitsValAux 0 cs).map Int.ofNat

/-- Modelled from the spec: the two-argument environment helper used by
main (`l.Env("POLL_INTERVAL", "30")`), whose implementation is not among
the sources; per the spec, POLL_INTERVAL is "optional ... default 30", so
the helper returns the variable's value when set and the supplied default
otherwise. The process environment is a partial map from names to values. -/
def Env (env : String → Option String) (name : String) (dflt : String) : String :=
  match env name with
  | some v => v
  | none => dflt

/-- Result of main's startup phase: either the fatal configuration log, or
the parsed poll interval with which NewJob and Execute proceed. -/
inductive StartupResult where
  | fatalConfig (msg : String)
  | proceed (pollInterval : Int)
deriving DecidableEq, Repr

/-- Mirror of the POLL_INTERVAL handling at the top of `func main()`:
`pollInterval, err := strconv.Atoi(l.Env("POLL_INTERVAL", "30"))` followed
by `log.Fatal().Msg("Failed to parse POLL_INTERVAL")` when `err != nil`.
This runs before NewJob and Execute, hence before any network call; no
positivity (or any range) check is performed on the parsed value. -/
def mainStartup (env : String → Option String) : StartupResult :=
  match Atoi (Env env "POLL_INTERVAL" "30") with
  | none => StartupResult.fatalConfig "Failed to parse POLL_INTERVAL"
  | some n => StartupResult.proceed n

/-- Value of one hex digit character (either case), for JSON `\u` escapes. -/
def hexVal (c : Char) : Option Nat :=
  if 0x30 ≤ c.toNat && c.toNat ≤ 0x39 then some (c.toNat - 0x30)
  else if 0x61 ≤ c.toNat && c.toNat ≤ 0x66 then some (c.toNat - 0x57)
  else if 0x41 ≤ c.toNat && c.toNat ≤ 0x46 then some (c.toNat - 0x37)
  else none

/-- Value of a four-hex-digit group in a JSON `\u` escape. -/
def hexQuad (a b c d : Char) : Option Nat := do
  let x ← hexVal a
  let y ← hexVal b
  let z ← hexVal c
  let w ← hexVal d
  pure (x * 4096 + y * 256 + z * 16 + w)

/-- The single-character JSON escapes (RFC 8259): the character following a
backslash and the character it denotes. `\u` is handled separately. -/
def jsonEscChar (e : Char) : Option Char :=
  if e = '"' then some '"'
  else if e = '\\' then some '\\'
  else if e = '/' then some '/'
  else if e = 'b' then some (Char.ofNat 8)
  else if e = 'f' then some (Char.ofNat 12)
  else if e = 'n' then some (Char.ofNat 10)
  else if e = 'r' then some (Char.ofNat 13)
  else if e = 't' then some (Char.ofNat 9)
  else none

/-- First pass of the JSON string-literal scanner (RFC 8259), entered just
after the opening quote: returns the sequence of decoded code units — one
per unescaped character, named escape or `\uXXXX` escape — and the input
remaining after the closing quote. Unescaped characters must be at or
above 0x20; anything else (such as the Go-only escapes `\a`, `\v`,
`\xhh`, `\Uhhhhhhhh`) makes the literal invalid. -/
def scanUnits : List Char → Option (List Nat × List Char)
  | [] => none
  | c :: rest =>
    if c = '"' then some ([], rest)
    else if c = '\\' then
      match rest with
      | [] => none
      | e :: t =>
        if e = 'u' then
          match t with
          | a :: b :: c2 :: d :: t2 =>
            match hexQuad a b c2 d with
            | none => none
            | some n => (scanUnits t2).map (fun p => (n :: p.1, p.2))
          | _ => none
        else
          match jsonEscChar e with
          | some ce => (scanUnits t).map (fun p => (ce.toNat :: p.1, p.2))
          | none => none
    else if 0x20 ≤ c.toNat then (scanUnits rest).map (fun p => (c.toNat :: p.1, p.2))
    else none

/-- Second pass of the JSON string-literal scanner: code units are turned
into characters, with a high-surrogate unit required to be followed by a
low-surrogate unit, the pair combining into one astral character; a lone
or misordered surrogate makes the literal invalid. -/
def unitsToChars : List Nat → Option (List Char)
  | [] => some []
  | n :: ns =>
    if n < 0xd800 || 0xe000 ≤ n then
      (unitsToChars ns).map (fun cs => Char.ofNat n :: cs)
    else if n < 0xdc00 then
      match ns with
      | m :: ns2 =>
        if 0xdc00 ≤ m && m < 0xe000 then
          (unitsToChars ns2).map (fun cs =>
            Char.ofNat (0x10000 + (n - 0xd800) * 0x400 + (m - 0xdc00)) :: cs)
        else none
      | [] => none
    else none

/-- Scanner for the contents of a JSON string literal, entered just after
the opening quote: returns the decoded characters and the input remaining
after the closing quote. -/
def scanLit (l : List Char) : Option (List Char × List Char) :=
  (scanUnits l).bind (fun p => (unitsToChars p.1).map (fun cs => (cs, p.2)))

/-- Strips an expected sequence of leading characters, returning the rest. -/
def stripLead : List Char → List Char → Option (List Char)
  | [], rest => some rest
  | _ :: _, [] => none
  | p :: ps, c :: cs => if c = p then stripLead ps cs else none

/-- JSON reading of a trigger request body: accepts exactly the texts of
the form `\x7b"request": \x7b"branch": <string-literal>\x7d\x7d` that the
code's Sprintf produces, where the string literal must be a valid JSON
string (scanned by `scanLit`); returns the decoded branch. Since the
scaffolding around the literal is fixed valid JSON, a body of this shape is
valid JSON exactly when the branch literal is, which is what this function
decides. -/
def parseTriggerBody (body : String) : Option String := do
  let r1 ← stripLead bodyOpen body.data
  match r1 with
  | '"' :: r2 =>
    let (s, r3) ← scanLit r2
    match r3 with
    | ['\x7d', '\x7d'] => some (String.mk s)
    | _ => none
  | _ => none

/-- Characters for which Go `%q` quoting emits output that is also a valid
JSON escape (or needs no escape): the ASCII-printable range 0x20..0x7e,
plus backspace, tab, newline, form feed and carriage return, whose Go
named escapes coincide with JSON escapes. -/
def jsonSafeChar (c : Char) : Bool :=
  (decide (0x20 ≤ c.toNat) && decide (c.toNat ≤ 0x7e)) ||
    c.toNat = 8 || c.toNat = 9 || c.toNat = 10 || c.toNat = 12 || c.toNat = 13

/-- Whether a log line is the one-time build-started notice. -/
def isStarted : LogLine → Bool
  | LogLine.buildStarted _ _ => true
  | _ => false

/-- Number of build-started notices in a log. -/
def countStarted (log : List LogLine) : Nat := log.countP isStarted

/-- A concrete Job configuration used by witness theorems. -/
def jobA : Job := NewJob "main" "octo" "repo" "tok" "org" 30

/-- A poll environment in which every status fetch fails at the send
stage, used by witness theorems. -/
def envAllFail : Nat → HttpOutcome buildStatusResponse :=
  fun _ => HttpOutcome.sendFailure

/-- A tick outcome fetching a build still in the non-terminal state
"started", used by witness theorems. -/
def tickStarted : HttpOutcome buildStatusResponse :=
  HttpOutcome.ok ⟨[⟨"99", "created", "started"⟩]⟩

/-- A tick outcome fetching a build in the terminal state "passed", used
by witness theorems. -/
def tickPassed : HttpOutcome buildStatusResponse :=
  HttpOutcome.ok ⟨[⟨"99", "started", "passed"⟩]⟩

/-- Characterization of a poll tick whose status fetch returns an error:
the error is logged after the polling and fetching lines and nothing else
changes (the loop recovers and keeps going). -/
theorem pollTick_err (j : Job) (r : String) (st : PollState)
    (t : HttpOutcome buildStatusResponse) (b0 : build) (e : JobError)
    (hgb : getBuildStatus t = (b0, some e)) :
    pollTick j r st t =
      { st with log := st.log ++ [LogLine.polling, LogLine.fetching r, LogLine.pollError e] } := by
  unfold pollTick
  rw [hgb]
  simp [List.append_assoc]

/-- Characterization of a poll tick whose fetch succeeds while the
build-started notice has not yet been sent: the notice for the fetched
build is logged, the flag is set, and the build is delivered exactly when
its state is in the Done set. -/
theorem pollTick_ok_notSent (j : Job) (r : String) (st : PollState)
    (t : HttpOutcome buildStatusResponse) (b : build)
    (hgb : getBuildStatus t = (b, none)) (hs : st.sentBuildID = false) :
    pollTick j r st t =
      { sentBuildID := true
        log := st.log ++ [LogLine.polling, LogLine.fetching r,
                          LogLine.buildStarted b.ID (buildURL j b.ID)]
        delivered := if contains travisDoneTermSet b.State then some b
                     else st.delivered } := by
  unfold pollTick
  rw [hgb]
  by_cases hd : contains travisDoneTermSet b.State = true <;>
    simp [hs, hd, List.append_assoc]

/-- Characterization of a poll tick whose fetch succeeds after the
build-started notice has been sent: only the polling and fetching lines
are logged, and the build is delivered exactly when its state is in the
Done set. -/
theorem pollTick_ok_sent (j : Job) (r : String) (st : PollState)
    (t : HttpOutcome buildStatusResponse) (b : build)
    (hgb : getBuildStatus t = (b, none)) (hs : st.sentBuildID = true) :
    pollTick j r st t =
      { sentBuildID := true
        log := st.log ++ [LogLine.polling, LogLine.fetching r]
        delivered := if contains travisDoneTermSet b.State then some b
                     else st.delivered } := by
  unfold pollTick
  rw [hgb]
  by_cases hd : contains travisDoneTermSet b.State = true <;>
    simp [hs, hd, List.append_assoc]

/-- Every poll tick only appends to the log. -/
theorem pollTick_log_ext (j : Job) (r : String) (st : PollState)
    (t : HttpOutcome buildStatusResponse) :
    ∃ ex, (pollTick j r st t).log = st.log ++ ex := by
  rcases hgb : getBuildStatus t with ⟨b, o⟩
  cases o with
  | some e => exact ⟨_, by rw [pollTick_err j r st t b e hgb]⟩
  | none =>
    by_cases hs : st.sentBuildID = true
    · exact ⟨_, by rw [pollTick_ok_sent j r st t b hgb hs]⟩
    · exact ⟨_, by rw [pollTick_ok_notSent j r st t b hgb (by simpa using hs)]⟩

/-- After a delivery, the loop consumes no further tick. -/
theorem pollLoop_of_delivered (j : Job) (r : String) (st : PollState)
    (ts : List (HttpOutcome buildStatusResponse))
    (h : st.delivered.isSome = true) :
    pollLoop j r st ts = st := by
  cases ts with
  | nil => rfl
  | cons t ts => simp [pollLoop, h]

/-- Processing a concatenation of tick lists is processing the first, then
the second from the reached state. -/
theorem pollLoop_append (j : Job) (r : String)
    (as bs : List (HttpOutcome buildStatusResponse)) (st : PollState) :
    pollLoop j r st (as ++ bs) = pollLoop j r (pollLoop j r st as) bs := by
  induction as generalizing st with
  | nil => rfl
  | cons a as ih =>
    by_cases h : st.delivered.isSome = true
    · rw [pollLoop_of_delivered j r st (a :: as ++ bs) h,
          pollLoop_of_delivered j r st (a :: as) h,
          pollLoop_of_delivered j r st bs h]
    · simp only [List.cons_append, pollLoop, h, if_false, Bool.false_eq_true]
      exact ih _

/-- Log lines present before the loop runs are still present afterwards. -/
theorem pollLoop_log_mono (j : Job) (r : String)
    (ts : List (HttpOutcome buildStatusResponse)) (st : PollState)
    (l : LogLine) (h : l ∈ st.log) : l ∈ (pollLoop j r st ts).log := by
  induction ts generalizing st with
  | nil => exact h
  | cons t ts ih =>
    by_cases hd : st.delivered.isSome = true
    · rw [pollLoop_of_delivered j r st (t :: ts) hd]; exact h
    · simp only [pollLoop, hd, if_false, Bool.false_eq_true]
      apply ih
      obtain ⟨ex, hex⟩ := pollTick_log_ext j r st t
      rw [hex]
      exact List.mem_append_left _ h

/-- Once the build-started flag is set, the loop emits no further
build-started notice. -/
theorem pollLoop_count_sent (j : Job) (r : String)
    (ts : List (HttpOutcome buildStatusResponse)) (st : PollState)
    (hs : st.sentBuildID = true) :
    countStarted (pollLoop j r st ts).log = countStarted st.log := by
  induction ts generalizing st with
  | nil => rfl
  | cons t ts ih =>
    by_cases hd : st.delivered.isSome = true
    · rw [pollLoop_of_delivered j r st (t :: ts) hd]
    · simp only [pollLoop, hd, if_false, Bool.false_eq_true]
      rcases hgb : getBuildStatus t with ⟨b, o⟩
      cases o with
      | some e =>
        rw [pollTick_err j r st t b e hgb, ih _ (by simpa using hs)]
        simp [countStarted, List.countP_append, isStarted]
      | none =>
        rw [pollTick_ok_sent j r st t b hgb hs, ih _ rfl]
        simp [countStarted, List.countP_append, isStarted]

/-- A run of ticks whose fetches all fail changes neither the
build-started flag, nor the channel, nor the number of build-started
notices in the log. -/
theorem pollLoop_err_pre (j : Job) (r : String)
    (pre : List (HttpOutcome buildStatusResponse)) (st : PollState)
    (hpre : ∀ x ∈ pre, (getBuildStatus x).2.isSome = true) :
    (pollLoop j r st pre).sentBuildID = st.sentBuildID ∧
    (pollLoop j r st pre).delivered = st.delivered ∧
    countStarted (pollLoop j r st pre).log = countStarted st.log := by
  induction pre generalizing st with
  | nil => exact ⟨rfl, rfl, rfl⟩
  | cons t ts ih =>
    by_cases hd : st.delivered.isSome = true
    · rw [pollLoop_of_delivered j r st (t :: ts) hd]
      exact ⟨rfl, rfl, rfl⟩
    · simp only [pollLoop, hd, if_false, Bool.false_eq_true]
      have ht := hpre t (List.mem_cons_self t ts)
      rcases hgb : getBuildStatus t with ⟨b, o⟩
      cases o with
      | none => rw [hgb] at ht; simp at ht
      | some e =>
        rw [pollTick_err j r st t b e hgb]
        obtain ⟨h1, h2, h3⟩ := ih _ (fun x hx => hpre x (List.mem_cons_of_mem t hx))
        refine ⟨by rw [h1], by rw [h2], ?_⟩
        rw [h3]
        simp [countStarted, List.countP_append, isStarted]

/-- A loop over ticks none of which delivers leaves the channel
unchanged. -/
theorem pollLoop_no_deliver (j : Job) (r : String)
    (ts : List (HttpOutcome buildStatusResponse)) (st : PollState)
    (h : ∀ t ∈ ts, tickDelivers t = false) :
    (pollLoop j r st ts).delivered = st.delivered := by
  induction ts generalizing st with
  | nil => rfl
  | cons t ts ih =>
    by_cases hd : st.delivered.isSome = true
    · rw [pollLoop_of_delivered j r st (t :: ts) hd]
    · simp only [pollLoop, hd, if_false, Bool.false_eq_true]
      have ht := h t (List.mem_cons_self t ts)
      have hrest : ∀ x ∈ ts, tickDelivers x = false :=
        fun x hx => h x (List.mem_cons_of_mem t hx)
      rcases hgb : getBuildStatus t with ⟨b, o⟩
      cases o with
      | some e => rw [ih _ hrest, pollTick_err j r st t b e hgb]
      | none =>
        have hnd : contains travisDoneTermSet b.State = false := by
          simpa [tickDelivers, hgb] using ht
        rw [ih _ hrest]
        by_cases hs : st.sentBuildID = true
        · rw [pollTick_ok_sent j r st t b hgb hs]; simp [hnd]
        · rw [pollTick_ok_notSent j r st t b hgb (by simpa using hs)]; simp [hnd]

/-- Any build sitting in the channel after the loop has a Done-set state,
provided that was true before the loop (in particular from the empty
initial channel). -/
theorem pollLoop_delivered_sound (j : Job) (r : String)
    (ts : List (HttpOutcome buildStatusResponse)) (st : PollState)
    (h : ∀ b, st.delivered = some b → contains travisDoneTermSet b.State = true) :
    ∀ b, (pollLoop j r st ts).delivered = some b →
      contains travisDoneTermSet b.State = true := by
  induction ts generalizing st with
  | nil => exact h
  | cons t ts ih =>
    by_cases hd : st.delivered.isSome = true
    · rw [pollLoop_of_delivered j r st (t :: ts) hd]; exact h
    · simp only [pollLoop, hd, if_false, Bool.false_eq_true]
      apply ih
      intro b hb
      rcases hgb : getBuildStatus t with ⟨b0, o⟩
      cases o with
      | some e =>
        rw [pollTick_err j r st t b0 e hgb] at hb
        exact h b hb
      | none =>
        by_cases hdone : contains travisDoneTermSet b0.State = true
        · by_cases hs : st.sentBuildID = true
          · rw [pollTick_ok_sent j r st t b0 hgb hs] at hb
            simp only [hdone, if_true] at hb
            cases hb
            exact hdone
          · rw [pollTick_ok_notSent j r st t b0 hgb (by simpa using hs)] at hb
            simp only [hdone, if_true] at hb
            cases hb
            exact hdone
        · by_cases hs : st.sentBuildID = true
          · rw [pollTick_ok_sent j r st t b0 hgb hs] at hb
            simp only [hdone, if_false] at hb
            exact h b hb
          · rw [pollTick_ok_notSent j r st t b0 hgb (by simpa using hs)] at hb
            simp only [hdone, if_false] at hb
            exact h b hb

/-- Stripping a sequence from in front of itself leaves the rest. -/
theorem stripLead_self (p rest : List Char) : stripLead p (p ++ rest) = some rest := by
  induction p with
  | nil => rfl
  | cons c cs ih => simp [stripLead, ih]

/-- Rebuilding a string from its character list is the identity. -/
theorem string_mk_data (s : String) : String.mk s.data = s := by
  cases s
  rfl

/-- Scanning the Go quoting of one JSON-safe character consumes exactly
its escape and yields the character's code back: for such characters the
Go `%q` escape is also a valid JSON escape (or no escape at all). -/
theorem scanUnits_quoteChar (c : Char) (rest : List Char) (h : jsonSafeChar c = true) :
    scanUnits (goQuoteChar c ++ rest) =
      (scanUnits rest).map (fun p => (c.toNat :: p.1, p.2)) := by
  have h' := h
  simp only [jsonSafeChar, Bool.or_eq_true, Bool.and_eq_true, decide_eq_true_eq] at h'
  rcases h' with ((((⟨h20, h7e⟩ | h8) | h9) | h10) | h12) | h13
  · by_cases hq : c = '"'
    · subst hq
      have hg : goQuoteChar '"' ++ rest = '\\' :: '"' :: rest := by
        simp [goQuoteChar]
      rw [hg, scanUnits.eq_def]
      simp [jsonEscChar]
    · by_cases hb : c = '\\'
      · subst hb
        have hg : goQuoteChar '\\' ++ rest = '\\' :: '\\' :: rest := by
          simp [goQuoteChar]
        rw [hg, scanUnits.eq_def]
        simp [jsonEscChar]
      · have h80 : c.toNat < 0x80 := lt_of_le_of_lt h7e (by norm_num)
        have hpr : goIsPrint c = true := by
          simp only [goIsPrint, if_pos h80, Bool.and_eq_true, decide_eq_true_eq]
          exact ⟨h20, h7e⟩
        have hp : goQuoteChar c = [c] := by
          simp [goQuoteChar, hq, hb, hpr]
        rw [hp, List.singleton_append, scanUnits.eq_def]
        simp [hq, hb, h20]
  · have h0 := Char.ofNat_toNat c
    rw [h8] at h0
    subst h0
    have hg : goQuoteChar (Char.ofNat 8) ++ rest = '\\' :: 'b' :: rest := by
      simp [goQuoteChar, goIsPrint]
    rw [hg, scanUnits.eq_def]
    simp [jsonEscChar]
  · have h0 := Char.ofNat_toNat c
    rw [h9] at h0
    subst h0
    have hg : goQuoteChar (Char.ofNat 9) ++ rest = '\\' :: 't' :: rest := by
      simp [goQuoteChar, goIsPrint]
    rw [hg, scanUnits.eq_def]
    simp [jsonEscChar]
  · have h0 := Char.ofNat_toNat c
    rw [h10] at h0
    subst h0
    have hg : goQuoteChar (Char.ofNat 10) ++ rest = '\\' :: 'n' :: rest := by
      simp [goQuoteChar, goIsPrint]
    rw [hg, scanUnits.eq_def]
    simp [jsonEscChar]
  · have h0 := Char.ofNat_toNat c
    rw [h12] at h0
    subst h0
    have hg : goQuoteChar (Char.ofNat 12) ++ rest = '\\' :: 'f' :: rest := by
      simp [goQuoteChar, goIsPrint]
    rw [hg, scanUnits.eq_def]
    simp [jsonEscChar]
  · have h0 := Char.ofNat_toNat c
    rw [h13] at h0
    subst h0
    have hg : goQuoteChar (Char.ofNat 13) ++ rest = '\\' :: 'r' :: rest := by
      simp [goQuoteChar, goIsPrint]
    rw [hg, scanUnits.eq_def]
    simp [jsonEscChar]

/-- Scanning the Go quoting of a JSON-safe string, followed by the closing
quote, yields the whole string's character codes and stops at the quote. -/
theorem scanUnits_quote (cs : List Char) (rest : List Char)
    (h : ∀ c ∈ cs, jsonSafeChar c = true) :
    scanUnits (cs.flatMap goQuoteChar ++ ('"' :: rest)) =
      some (cs.map Char.toNat, rest) := by
  induction cs with
  | nil =>
    rw [List.flatMap_nil, List.nil_append, scanUnits.eq_def]
    simp
  | cons c cs ih =>
    have hc := h c (List.mem_cons_self c cs)
    have hcs : ∀ x ∈ cs, jsonSafeChar x = true :=
      fun x hx => h x (List.mem_cons_of_mem c hx)
    rw [List.flatMap_cons, List.append_assoc, scanUnits_quoteChar c _ hc, ih hcs]
    rfl

/-- Turning the character codes of JSON-safe characters back into
characters is the identity: such codes are never surrogates. -/
theorem unitsToChars_safe (cs : List Char) (h : ∀ c ∈ cs, jsonSafeChar c = true) :
    unitsToChars (cs.map Char.toNat) = some cs := by
  induction cs with
  | nil => rfl
  | cons c cs ih =>
    have hc := h c (List.mem_cons_self c cs)
    have hcs : ∀ x ∈ cs, jsonSafeChar x = true :=
      fun x hx => h x (List.mem_cons_of_mem c hx)
    have hlt : c.toNat < 0xd800 := by
      simp only [jsonSafeChar, Bool.or_eq_true, Bool.and_eq_true, decide_eq_true_eq] at hc
      rcases hc with ((((⟨_, h7e⟩ | h8) | h9) | h10) | h12) | h13 <;> omega
    rw [List.map_cons, unitsToChars.eq_def]
    simp only [if_pos (Or.inl hlt), Bool.or_eq_true, decide_eq_true_eq]
    rw [ih hcs, Char.ofNat_toNat]
    rfl

/-- The character sequence of a trigger body: fixed opening, quoted
branch, two closing braces. -/
theorem triggerBody_data (s : String) :
    (triggerBody s).data =
      bodyOpen ++ ('"' :: (s.data.flatMap goQuoteChar ++ ('"' :: bodyTail))) := by
  show (String.mk (bodyOpen ++ goQuote s ++ bodyTail)).data = _
  simp [goQuote, List.append_assoc]

/-- Claim C1 (code bug): Execute silently swallows trigger and poll
errors. The outer `err` of Execute is shadowed by the `:=` bindings, so
when triggerBuild fails (here: the request cannot be sent) or when
pollForResult fails (here: every poll tick fails, ending in the timeout
error), Execute logs nothing fatal and merely returns, after which main
blocks forever; the spec's claim that such errors are logged at fatal
severity and terminate the process describes the dead `log.Fatal` line. -/
theorem execute_swallows_errors :
    Execute jobA HttpOutcome.sendFailure envAllFail = ExecOutcome.returned ∧
    Execute jobA (HttpOutcome.ok ⟨⟨"42"⟩⟩) envAllFail = ExecOutcome.returned := by
  exact ⟨by decide, by decide⟩

/-- Claim C2: if no tick before the 40-minute deadline delivers a
Done-state build, pollForResult returns the empty build record together
with the timeout error, and the result — record, error and log alike — is
entirely determined by the ticks that fire before the deadline: ticks
after the timeout are never consulted, so no further polling happens and
no further log lines appear. -/
theorem pollForResult_timeout (j : Job) (r : String)
    (env : Nat → HttpOutcome buildStatusResponse)
    (h : ∀ i, i < maxTicks j.pollInterval → tickDelivers (env i) = false) :
    (pollForResult j r env).1 = (emptyBuild, some JobError.TimeoutError) ∧
    ∀ env2 : Nat → HttpOutcome buildStatusResponse,
      (∀ i, i < maxTicks j.pollInterval → env2 i = env i) →
      pollForResult j r env2 = pollForResult j r env := by
  constructor
  · have hnd : (pollLoop j r initPollState
        ((List.range (maxTicks j.pollInterval)).map env)).delivered = none := by
      rw [pollLoop_no_deliver]
      · rfl
      · intro t ht
        rw [List.mem_map] at ht
        obtain ⟨i, hi, rfl⟩ := ht
        exact h i (List.mem_range.mp hi)
    simp only [pollForResult]
    rw [hnd]
  · intro env2 h2
    have hmap : (List.range (maxTicks j.pollInterval)).map env2 =
        (List.range (maxTicks j.pollInterval)).map env := by
      apply List.map_congr_left
      intro i hi
      exact h2 i (List.mem_range.mp hi)
    simp only [pollForResult]
    rw [hmap]

/-- Witness for C2 at a concrete configuration: a 30-second interval
yields 79 ticks before the deadline; with every fetch failing, the call
times out with the empty record. -/
theorem pollForResult_timeout_witness :
    (∀ i, i < maxTicks jobA.pollInterval → tickDelivers (envAllFail i) = false) ∧
    ((pollForResult jobA "42" envAllFail).1 = (emptyBuild, some JobError.TimeoutError) ∧
      ∀ env2 : Nat → HttpOutcome buildStatusResponse,
        (∀ i, i < maxTicks jobA.pollInterval → env2 i = envAllFail i) →
        pollForResult jobA "42" env2 = pollForResult jobA "42" envAllFail) :=
  ⟨by decide, pollForResult_timeout jobA "42" envAllFail (by decide)⟩

/-- Claim C3: for Done-set states, reportStatus exits 0 exactly when the
state is in the Success set and 1 otherwise; moreover any state outside
the Success set — terminal or not — takes the failure path, since the
code checks success membership and unconditionally falls through to
failure. -/
theorem reportStatus_success_iff (id s : String) :
    (contains travisDoneTermSet s = true →
      (reportStatus id s = 0 ↔ contains travisSuccessTermSet s = true)) ∧
    (contains travisSuccessTermSet s = false → reportStatus id s = 1) := by
  constructor
  · intro _
    by_cases h : contains travisSuccessTermSet s = true <;>
      simp [reportStatus, reportSuccess, reportFailure, h]
  · intro h
    simp [reportStatus, reportSuccess, reportFailure, h]

/-- Witness for C3: "failed" is a Done state outside the Success set and
exits with code 1; "passed" exits with code 0. -/
theorem reportStatus_success_iff_witness :
    contains travisDoneTermSet "failed" = true ∧
    (reportStatus "7" "failed" = 0 ↔ contains travisSuccessTermSet "failed" = true) ∧
    reportStatus "7" "failed" = 1 ∧ reportStatus "8" "passed" = 0 :=
  ⟨by decide, (reportStatus_success_iff "7" "failed").1 (by decide),
   (reportStatus_success_iff "7" "failed").2 (by decide), by decide⟩

/-- Claim C4: a poll tick that fetches a build whose state is not in the
Done set leaves the handoff channel untouched (the loop keeps polling),
and consequently any build the loop ever places in the channel has a
Done-set state. -/
theorem poll_nonDone_not_delivered :
    (∀ (j : Job) (r : String) (st : PollState)
        (t : HttpOutcome buildStatusResponse) (b : build),
        getBuildStatus t = (b, none) →
        contains travisDoneTermSet b.State = false →
        (pollTick j r st t).delivered = st.delivered) ∧
    (∀ (j : Job) (r : String) (ts : List (HttpOutcome buildStatusResponse)) (b : build),
        (pollLoop j r initPollState ts).delivered = some b →
        contains travisDoneTermSet b.State = true) := by
  constructor
  · intro j r st t b hgb hnd
    by_cases hs : st.sentBuildID = true
    · rw [pollTick_ok_sent j r st t b hgb hs]
      simp [hnd]
    · rw [pollTick_ok_notSent j r st t b hgb (by simpa using hs)]
      simp [hnd]
  · intro j r ts b hb
    exact pollLoop_delivered_sound j r ts initPollState (by intro b hb; cases hb) b hb

/-- Witness for C4: a fetch of a build in the non-terminal state
"started" does not deliver it. -/
theorem poll_nonDone_not_delivered_witness :
    getBuildStatus tickStarted = (⟨"99", "created", "started"⟩, none) ∧
    contains travisDoneTermSet "started" = false ∧
    (pollTick jobA "42" initPollState tickStarted).delivered = initPollState.delivered :=
  ⟨by decide, by decide,
   poll_nonDone_not_delivered.1 jobA "42" initPollState tickStarted
     ⟨"99", "created", "started"⟩ (by decide) (by decide)⟩

/-- Claim C5: on a decoded status response with at least one build record,
getBuildStatus returns the first record unmodified with no error; with
zero records it returns the zero-value record and the not-found error,
whose message is "no builds found". -/
theorem getBuildStatus_first_or_notFound :
    (∀ (b : build) (rest : List build),
        getBuildStatus (HttpOutcome.ok ⟨b :: rest⟩) = (b, none)) ∧
    getBuildStatus (HttpOutcome.ok ⟨[]⟩) = (emptyBuild, some JobError.NotFoundError) ∧
    errMsg JobError.NotFoundError = "no builds found" :=
  ⟨fun _ _ => rfl, rfl, rfl⟩

/-- Claim C6: triggerBuild classifies a failed send and an unreadable body
as transport errors, fails with a decode error exactly when the body does
not unmarshal, and otherwise returns the identifier from the response's
nested request.id field. -/
theorem triggerBuild_error_classes :
    triggerBuild (HttpOutcome.sendFailure) = ("", some JobError.TransportError) ∧
    triggerBuild (HttpOutcome.readFailure) = ("", some JobError.TransportError) ∧
    (∀ net : HttpOutcome triggerBuildResponse,
        (triggerBuild net).2 = some JobError.DecodeError ↔
          net = HttpOutcome.decodeFailure) ∧
    (∀ res : triggerBuildResponse,
        triggerBuild (HttpOutcome.ok res) = (res.Request.ID, none)) := by
  refine ⟨rfl, rfl, ?_, fun _ => rfl⟩
  intro net
  cases net <;> simp [triggerBuild]

/-- Claim C7 counterexample: POLL_INTERVAL="-5" fails the positive-integer
requirement, yet startup does not terminate with a configuration error —
strconv.Atoi accepts the sign and main checks nothing further, so the
process proceeds with a negative interval. -/
theorem pollInterval_negative_accepted :
    mainStartup (fun n => if n = "POLL_INTERVAL" then some "-5" else none) =
      StartupResult.proceed (-5) ∧ ¬ (0 < (-5 : Int)) :=
  ⟨by decide, by decide⟩

/-- Claim C7 as amended: POLL_INTERVAL is optional with default 30 and
must parse as an integer; startup terminates with the fatal configuration
message exactly when integer parsing fails (e.g. on "abc"), before any
network call; positivity is not checked. -/
theorem mainStartup_parse_fatal (env : String → Option String) :
    (mainStartup env = StartupResult.fatalConfig "Failed to parse POLL_INTERVAL" ↔
      Atoi (Env env "POLL_INTERVAL" "30") = none) ∧
    mainStartup (fun _ => none) = StartupResult.proceed 30 ∧
    mainStartup (fun n => if n = "POLL_INTERVAL" then some "abc" else none) =
      StartupResult.fatalConfig "Failed to parse POLL_INTERVAL" := by
  refine ⟨?_, by decide, by decide⟩
  unfold mainStartup
  cases h : Atoi (Env env "POLL_INTERVAL" "30") <;> simp [h]

/-- Claim C8: within one poll loop, when every tick before some tick fails
its fetch and that tick fetches build `b`, the build-started notice is
logged exactly once — whatever happens afterwards — and the notice carries
the build's own identifier (inside its human-facing URL), not the
RequestID. -/
theorem pollLoop_started_once (j : Job) (r : String)
    (pre : List (HttpOutcome buildStatusResponse))
    (t : HttpOutcome buildStatusResponse) (b : build)
    (post : List (HttpOutcome buildStatusResponse))
    (hpre : ∀ x ∈ pre, (getBuildStatus x).2.isSome = true)
    (hgb : getBuildStatus t = (b, none)) :
    countStarted (pollLoop j r initPollState (pre ++ t :: post)).log = 1 ∧
    LogLine.buildStarted b.ID (buildURL j b.ID) ∈
      (pollLoop j r initPollState (pre ++ t :: post)).log := by
  rw [pollLoop_append]
  obtain ⟨hsent, hdel, hcount⟩ := pollLoop_err_pre j r pre initPollState hpre
  have hdel0 : (pollLoop j r initPollState pre).delivered = none := hdel
  have hstep : pollLoop j r (pollLoop j r initPollState pre) (t :: post) =
      pollLoop j r (pollTick j r (pollLoop j r initPollState pre) t) post := by
    simp [pollLoop, hdel0]
  rw [hstep, pollTick_ok_notSent j r _ t b hgb hsent]
  set st1 := pollLoop j r initPollState pre with hst1
  have hc1 : countStarted (st1.log ++ [LogLine.polling, LogLine.fetching r,
      LogLine.buildStarted b.ID (buildURL j b.ID)]) = 1 := by
    rw [countStarted, List.countP_append]
    have : countStarted st1.log = 0 := hcount
    rw [countStarted] at this
    rw [this]
    simp [isStarted]
  have hmem1 : LogLine.buildStarted b.ID (buildURL j b.ID) ∈
      st1.log ++ [LogLine.polling, LogLine.fetching r,
        LogLine.buildStarted b.ID (buildURL j b.ID)] := by
    simp
  by_cases hdone : contains travisDoneTermSet b.State = true
  · rw [pollLoop_of_delivered j r _ post (by simp [hdone])]
    exact ⟨hc1, hmem1⟩
  · constructor
    · rw [pollLoop_count_sent j r post _ rfl]
      exact hc1
    · exact pollLoop_log_mono j r post _ _ hmem1

/-- Witness for C8: the first tick fails, the second fetches a running
build with id 99, the third fetches it again; the notice for build 99
appears exactly once. -/
theorem pollLoop_started_once_witness :
    (∀ x ∈ [HttpOutcome.sendFailure], ((getBuildStatus x).2.isSome = true)) ∧
    getBuildStatus tickStarted = (⟨"99", "created", "started"⟩, none) ∧
    (countStarted (pollLoop jobA "42" initPollState
        ([HttpOutcome.sendFailure] ++ tickStarted :: [tickStarted])).log = 1 ∧
      LogLine.buildStarted "99" (buildURL jobA "99") ∈
        (pollLoop jobA "42" initPollState
          ([HttpOutcome.sendFailure] ++ tickStarted :: [tickStarted])).log) :=
  ⟨by decide, by decide,
   pollLoop_started_once jobA "42" [HttpOutcome.sendFailure] tickStarted
     ⟨"99", "created", "started"⟩ [tickStarted] (by decide) (by decide)⟩

/-- Claim C9 counterexample: for a branch consisting of the control
character U+0007 (BEL), Go %q quoting emits the Go-only escape sequence
backslash-a, which is not a valid JSON escape: the produced body fails
JSON decoding instead of decoding back to the branch. -/
theorem triggerBody_bel_invalid :
    parseTriggerBody (triggerBody (String.mk ['\x07'])) = none := by
  decide

/-- Claim C9 as amended: for every branch string whose characters are
ASCII-printable or among backspace, tab, newline, form feed and carriage
return, the body built by triggerBuild is valid JSON of the shape
`\x7b"request": \x7b"branch": "<branch>"\x7d\x7d` whose branch field
decodes back to exactly the configured branch; control characters outside
that set (such as U+0007) make the body invalid JSON. -/
theorem parseTriggerBody_roundtrip (s : String)
    (h : ∀ c ∈ s.data, jsonSafeChar c = true) :
    parseTriggerBody (triggerBody s) = some s := by
  have hscan : scanLit (s.data.flatMap goQuoteChar ++ ('"' :: bodyTail)) =
      some (s.data, bodyTail) := by
    rw [scanLit, scanUnits_quote s.data bodyTail h]
    simp only [Option.bind_eq_bind, Option.some_bind]
    rw [unitsToChars_safe s.data h]
    rfl
  unfold parseTriggerBody
  rw [triggerBody_data, stripLead_self]
  simp only [Option.bind_eq_bind, Option.some_bind]
  rw [hscan]
  simp [bodyTail, string_mk_data]

/-- Witness for C9 (amended): a branch with slash, quote and backslash
round-trips through the body intact. -/
theorem parseTriggerBody_roundtrip_witness :
    (∀ c ∈ ("fea/ture \"x\\y".data), jsonSafeChar c = true) ∧
    parseTriggerBody (triggerBody "fea/ture \"x\\y") = some "fea/ture \"x\\y" :=
  ⟨by decide, parseTriggerBody_roundtrip "fea/ture \"x\\y" (by decide)⟩

/-- Claim C10: the job built by NewJob carries a client with a 5-second
timeout, and both the trigger call and every per-tick status call are made
with that same client, so each network request is bounded by the 5-second
per-request timeout. -/
theorem newJob_client_used_everywhere (branch owner repoName token tld : String)
    (pi : Nat) (requestID : String) :
    (triggerHttpCall (NewJob branch owner repoName token tld pi)).1.timeoutSeconds = 5 ∧
    (statusHttpCall (NewJob branch owner repoName token tld pi) requestID).1.timeoutSeconds = 5 ∧
    (triggerHttpCall (NewJob branch owner repoName token tld pi)).1 =
      (NewJob branch owner repoName token tld pi).client ∧
    (statusHttpCall (NewJob branch owner repoName token tld pi) requestID).1 =
      (NewJob branch owner repoName token tld pi).client :=
  ⟨rfl, rfl, rfl, rfl⟩

end TravisJob
